import Mathlib

set_option maxRecDepth 10000

namespace ResearchAssistant

/-!
Shallow embedding of the research-assistant pipeline
(`src/models.py`, `src/tools.py`, `src/graph.py`).

External collaborators (search providers, the language model) are modelled
as oracle inputs collected in an `Env`; the LLM's textual replies are
abstracted by the outcome of `json.loads` on them, since that is the only
way the code consumes them.
-/

/-- JSON values as produced by Python's `json.loads`.  Python distinguishes
`int` and `float` tokens (`1` versus `1.0`), and this distinction matters in
`filter_node` (a float index raises `TypeError` where an int succeeds), so the
two are kept as separate constructors.  Floats are represented by rationals;
the values reached by the claims are all exactly representable. -/
inductive Json where
  | null
  | jbool (b : Bool)
  | jint (i : Int)
  | jfloat (q : Rat)
  | jstr (s : String)
  | jarr (elems : List Json)
  | jobj (fields : List (String × Json))

/-- `d[key]` lookup for a Python dict represented as an association list
(first match wins; `json.loads` never produces duplicate keys). -/
def dictGet : List (String × Json) → String → Option Json
  | [], _ => none
  | (k, v) :: rest, key => if k = key then some v else dictGet rest key

/-- `d[key] = v` for a Python dict: replace the first binding in place,
append if the key is absent (Python preserves insertion order). -/
def dictSet : List (String × Json) → String → Json → List (String × Json)
  | [], key, v => [(key, v)]
  | (k, w) :: rest, key, v =>
      if k = key then (key, v) :: rest else (k, w) :: dictSet rest key v

/-! ## models.py -/

/-- `SourceType(str, Enum)` from `models.py`. -/
inductive SourceType where
  | paper
  | article
  | wiki
  | web
deriving DecidableEq, Repr

/-- `SearchResult` from `models.py` (all four fields are strings; `url`
defaults to the empty string). -/
structure SearchResult where
  title : String
  url : String
  snippet : String
  source : String
deriving DecidableEq, Repr

instance : Inhabited SearchResult := ⟨⟨"", "", "", ""⟩⟩

/-- `Citation` from `models.py`. -/
structure Citation where
  author : String
  title : String
  url : String
  year : Option Int
  source_type : SourceType
deriving DecidableEq, Repr

/-- `Finding` from `models.py` (`confidence` is a float in `[0, 1]`). -/
structure Finding where
  claim : String
  evidence : String
  confidence : Rat
  citations : List Citation
deriving DecidableEq, Repr

/-- `QueryMetadata` from `models.py`. -/
structure QueryMetadata where
  query_time_seconds : Rat
  sources_found : Int
  sources_used : Int
  tools_used : List String
  timestamp : String
  parse_success : Bool
  retry_count : Int
deriving DecidableEq, Repr

/-- `ResearchSummary` from `models.py`. -/
structure ResearchSummary where
  topic : String
  query : String
  summary : String
  findings : List Finding
  sources : List Citation
  tools_used : List String
  metadata : QueryMetadata
deriving DecidableEq, Repr

/-- Ambient values Pydantic reads from the clock: `datetime.now().year`
(used by `Citation.validate_year`) and `datetime.now().isoformat()`
(the `QueryMetadata.timestamp` default factory). -/
structure ValidCtx where
  currentYear : Int
  nowTimestamp : String

/-- A JSON value validating as a Python `str`. -/
def getStr : Json → Except String String
  | .jstr s => .ok s
  | _ => .error "expected string"

/-- A JSON value validating as a Python `bool`. -/
def getBool : Json → Except String Bool
  | .jbool b => .ok b
  | _ => .error "expected bool"

/-- A JSON value validating as a Python `int`. -/
def getInt : Json → Except String Int
  | .jint i => .ok i
  | _ => .error "expected int"

/-- A JSON value validating as a Python `float`; Pydantic coerces ints to
floats, so `jint` is accepted as well. -/
def getFloat : Json → Except String Rat
  | .jint i => .ok (i : Rat)
  | .jfloat q => .ok q
  | _ => .error "expected float"

/-- A JSON value validating as a Python `list`. -/
def getList : Json → Except String (List Json)
  | .jarr xs => .ok xs
  | _ => .error "expected list"

/-- A required model field: absent means a validation error. -/
def reqField (fs : List (String × Json)) (key : String) : Except String Json :=
  match dictGet fs key with
  | some v => .ok v
  | none => .error (key ++ " missing")

/-- Validate every element of a list, failing on the first error
(Pydantic reports all errors but succeeds only if every element does,
which is all the pipeline observes). -/
def validateList {α : Type} (f : Json → Except String α) : List Json → Except String (List α)
  | [] => .ok []
  | x :: xs => do
      let a ← f x
      let as ← validateList f xs
      .ok (a :: as)

/-- `SourceType` enum validation: the string value of one of the members. -/
def SourceType.fromJson : Json → Except String SourceType
  | .jstr "paper" => .ok .paper
  | .jstr "article" => .ok .article
  | .jstr "wiki" => .ok .wiki
  | .jstr "web" => .ok .web
  | _ => .error "invalid source_type"

/-- A required string field. -/
def reqStrField (fs : List (String × Json)) (key : String) : Except String String :=
  reqField fs key >>= getStr

/-- An optional string field with default `d`. -/
def optStrField (fs : List (String × Json)) (key d : String) : Except String String :=
  match dictGet fs key with
  | none => .ok d
  | some v => getStr v

/-- The `year` field of `Citation`: optional int, checked by
`validate_year` against `[1900, datetime.now().year + 1]`. -/
def yearField (ctx : ValidCtx) (fs : List (String × Json)) :
    Except String (Option Int) :=
  match dictGet fs "year" with
  | none => .ok none
  | some .null => .ok none
  | some (.jint y) =>
      if 1900 ≤ y ∧ y ≤ ctx.currentYear + 1 then .ok (some y)
      else .error "year out of range"
  | some _ => .error "year must be an int"

/-- The `source_type` field of `Citation`: defaults to `web`. -/
def sourceTypeField (fs : List (String × Json)) : Except String SourceType :=
  match dictGet fs "source_type" with
  | none => .ok SourceType.web
  | some v => SourceType.fromJson v

/-- `Citation.model_validate`: `author` defaults to `"Unknown"`, `url` to
`""`, `year` is optional and (per `validate_year`) must lie in
`[1900, currentYear + 1]` when present, `source_type` defaults to `web`. -/
def Citation.fromJson (ctx : ValidCtx) : Json → Except String Citation
  | .jobj fs => do
      let author ← optStrField fs "author" "Unknown"
      let title ← reqStrField fs "title"
      let url ← optStrField fs "url" ""
      let year ← yearField ctx fs
      let st ← sourceTypeField fs
      .ok ⟨author, title, url, year, st⟩
  | _ => .error "citation must be an object"

/-- The `ge=0.0, le=1.0` constraint on `Finding.confidence`. -/
def chkConfidence (q : Rat) : Except String Rat :=
  if 0 ≤ q ∧ q ≤ 1 then .ok q else .error "confidence out of range"

/-- An optional list-of-`Citation` field with default `[]`. -/
def optCitationsField (ctx : ValidCtx) (fs : List (String × Json)) (key : String) :
    Except String (List Citation) :=
  match dictGet fs key with
  | none => .ok []
  | some v => getList v >>= validateList (Citation.fromJson ctx)

/-- `Finding.model_validate`: `claim` and `evidence` required strings,
`confidence` a float with `ge=0.0, le=1.0`, `citations` defaults to `[]`. -/
def Finding.fromJson (ctx : ValidCtx) : Json → Except String Finding
  | .jobj fs => do
      let claim ← reqStrField fs "claim"
      let evidence ← reqStrField fs "evidence"
      let conf ← reqField fs "confidence" >>= getFloat >>= chkConfidence
      let cits ← optCitationsField ctx fs "citations"
      .ok ⟨claim, evidence, conf, cits⟩
  | _ => .error "finding must be an object"

/-- The `ge=0.0` constraint on `query_time_seconds`. -/
def chkNonnegFloat (q : Rat) : Except String Rat :=
  if 0 ≤ q then .ok q else .error "must be nonnegative"

/-- The `ge=0` constraint on the int count fields. -/
def chkNonnegInt (i : Int) : Except String Int :=
  if 0 ≤ i then .ok i else .error "must be nonnegative"

/-- An optional list-of-string field with default `[]`. -/
def optStrListField (fs : List (String × Json)) (key : String) :
    Except String (List String) :=
  match dictGet fs key with
  | none => .ok []
  | some v => getList v >>= validateList getStr

/-- The `timestamp` field: defaults to `datetime.now().isoformat()`. -/
def tsField (ctx : ValidCtx) (fs : List (String × Json)) : Except String String :=
  match dictGet fs "timestamp" with
  | none => .ok ctx.nowTimestamp
  | some v => getStr v

/-- The `parse_success` field: defaults to `True`. -/
def psField (fs : List (String × Json)) : Except String Bool :=
  match dictGet fs "parse_success" with
  | none => .ok true
  | some v => getBool v

/-- The `retry_count` field: defaults to `0`, constrained to `ge=0`. -/
def rcField (fs : List (String × Json)) : Except String Int :=
  (match dictGet fs "retry_count" with
   | none => .ok (0 : Int)
   | some v => getInt v) >>= chkNonnegInt

/-- `QueryMetadata.model_validate`: three required non-negative numbers,
`tools_used` defaults to `[]`, `timestamp` to `datetime.now().isoformat()`,
`parse_success` to `true`, `retry_count` to `0` with `ge=0`. -/
def QueryMetadata.fromJson (ctx : ValidCtx) : Json → Except String QueryMetadata
  | .jobj fs => do
      let qts ← reqField fs "query_time_seconds" >>= getFloat >>= chkNonnegFloat
      let sf ← reqField fs "sources_found" >>= getInt >>= chkNonnegInt
      let su ← reqField fs "sources_used" >>= getInt >>= chkNonnegInt
      let tools ← optStrListField fs "tools_used"
      let ts ← tsField ctx fs
      let ps ← psField fs
      let rc ← rcField fs
      .ok ⟨qts, sf, su, tools, ts, ps, rc⟩
  | _ => .error "metadata must be an object"

/-- The `min_length=50` constraint on `summary`. -/
def chkSummaryLen (s : String) : Except String String :=
  if 50 ≤ s.length then .ok s else .error "summary shorter than 50 characters"

/-- The `min_length=1` constraint on `findings`. -/
def chkFindingsNonempty (l : List Finding) : Except String (List Finding) :=
  if l.isEmpty then .error "findings must be non-empty" else .ok l

/-- `ResearchSummary.model_validate`: `summary` has `min_length=50`,
`findings` has `min_length=1`, `sources` and `tools_used` default to `[]`,
`metadata` is a required nested `QueryMetadata`. -/
def ResearchSummary.fromJson (ctx : ValidCtx) : Json → Except String ResearchSummary
  | .jobj fs => do
      let topic ← reqStrField fs "topic"
      let query ← reqStrField fs "query"
      let summary ← reqStrField fs "summary" >>= chkSummaryLen
      let findings ← reqField fs "findings" >>= getList >>=
        validateList (Finding.fromJson ctx) >>= chkFindingsNonempty
      let sources ← optCitationsField ctx fs "sources"
      let tools ← optStrListField fs "tools_used"
      let md ← reqField fs "metadata" >>= QueryMetadata.fromJson ctx
      .ok ⟨topic, query, summary, findings, sources, tools, md⟩
  | _ => .error "summary must be an object"

/-! ## tools.py -/

/-- One raw hit yielded by `ddgs.text(query, max_results=...)`: a dict with
optional keys `title`, `href`, `body` (the code reads them via `.get` with
defaults). -/
structure DDGHit where
  title : Option String
  href : Option String
  body : Option String

/-- `search_duckduckgo` from `tools.py`, success path.  `ddg_gen` is the
outcome of the external `ddgs.text` call: `none` models a falsy generator
(`if ddg_gen:` fails), `some hits` the yielded dicts.  If no result was
collected, exactly one placeholder result is returned. -/
def search_duckduckgo (query : String) (ddg_gen : Option (List DDGHit)) :
    List SearchResult :=
  let results : List SearchResult :=
    match ddg_gen with
    | none => []
    | some hits => hits.map (fun r =>
        { title := r.title.getD "No Title"
          url := r.href.getD ""
          snippet := (r.body.getD "").take 500
          source := "duckduckgo" })
  if results.isEmpty then
    [{ title := "DuckDuckGo Search"
       url := ""
       snippet := "No results found for " ++ query
       source := "duckduckgo" }]
  else results

/-- `run_all_searches` from `tools.py`: each provider call either returns a
result list or raises after exhausting its retries (`none`); a raised
provider is skipped and the successful lists are concatenated in
provider-invocation order (DuckDuckGo, Wikipedia, ArXiv). -/
def run_all_searches (ddg wiki arx : Option (List SearchResult)) :
    List SearchResult :=
  (match ddg with | some rs => rs | none => []) ++
  (match wiki with | some rs => rs | none => []) ++
  (match arx with | some rs => rs | none => [])

/-! ## graph.py -/

/-- `MAX_VALIDATION_RETRIES` from `graph.py`. -/
def MAX_VALIDATION_RETRIES : Nat := 2

/-- The synthesis text handed to `validate_node`, abstracted by the only two
observations the code makes of it: truthiness (`if not raw`) and the outcome
of `json.loads`.  `malformed msg` is a non-empty string on which `json.loads`
raises `JSONDecodeError` with message `msg`; `wellFormed j` a non-empty
string parsing to `j`. -/
inductive RawText where
  | empty
  | malformed (msg : String)
  | wellFormed (j : Json)

/-- `ResearchState` from `graph.py` (the `start_time` float is not stored:
the only use of wall-clock time, `round(time.time() - start_time, 3)` inside
`validate_node`, is modelled by the oracle `Env.elapsed`). -/
structure ResearchState where
  query : String
  search_results : List SearchResult
  filtered_results : List SearchResult
  synthesis_raw : RawText
  validated_output : Option ResearchSummary
  tools_used : List String
  sources_found : Nat
  sources_used : Nat
  retry_count : Nat
  error : String

/-- Behaviour of the external collaborators during one run: the three
provider outcomes (`none` = the provider raised after its retries), the
parse outcome of the filter LLM reply, the synthesis text produced by the
LLM on attempt `k` (after `.strip()` and fence removal), the elapsed seconds
measured in the `k`-th `validate_node` call, and the clock values Pydantic
reads. -/
structure Env where
  ddgOutcome : Option (List SearchResult)
  wikiOutcome : Option (List SearchResult)
  arxivOutcome : Option (List SearchResult)
  filterResp : Option Json
  synthResp : Nat → RawText
  elapsed : Nat → Rat
  ctx : ValidCtx

/-- The aggregate the `search` node receives from `run_all_searches`. -/
def aggregateOf (env : Env) : List SearchResult :=
  run_all_searches env.ddgOutcome env.wikiOutcome env.arxivOutcome

/-- `search_node` from `graph.py`: store the aggregated results, the set of
source names (`list({r.source for r in results})`, modelled by order-keeping
deduplication) and `sources_found = len(results)`. -/
def search_node (env : Env) (s : ResearchState) : ResearchState :=
  let results := aggregateOf env
  { s with
    search_results := results
    tools_used := (results.map (fun r => r.source)).eraseDups
    sources_found := results.length }

/-- Python iteration `for i in indices` over a `json.loads` value: lists
yield their elements, strings their characters (length-1 strings), dicts
their keys; numbers, booleans and `None` raise `TypeError` (`none`). -/
def pyIter : Json → Option (List Json)
  | .jarr xs => some xs
  | .jstr s => some (s.toList.map (fun c => Json.jstr (String.singleton c)))
  | .jobj fs => some (fs.map (fun kv => Json.jstr kv.1))
  | _ => none

/-- One element of `[results[i-1] for i in indices if 1 <= i <= len(results)]`:
`none` = a raised `TypeError`, `some none` = rejected by the range test,
`some (some p)` = keep 0-based position `p`.  A Python `bool` is an `int`
(`True` is `1`, `False` is `0`), so `True` passes the range test whenever
the list is non-empty and indexes position 0; a `float` passes the
comparison but raises `TypeError` at `results[i - 1]` when in range, and is
silently rejected when out of range; any non-number raises at the
comparison. -/
def idxEval (n : Nat) : Json → Option (Option Nat)
  | .jint i => if 1 ≤ i ∧ i ≤ (n : Int) then some (some (i - 1).toNat) else some none
  | .jbool b => if b = true ∧ 1 ≤ n then some (some 0) else some none
  | .jfloat q => if 1 ≤ q ∧ q ≤ (n : Rat) then none else some none
  | _ => none

/-- The kept 0-based positions of the comprehension; `none` when any element
raises (a raised element aborts the whole comprehension, so earlier kept
elements are discarded too). -/
def selPositions (n : Nat) : List Json → Option (List Nat)
  | [] => some []
  | e :: rest =>
      match idxEval n e with
      | none => none
      | some none => selPositions n rest
      | some (some p) =>
          match selPositions n rest with
          | none => none
          | some ps => some (p :: ps)

/-- The `try/except` body of `filter_node`: `resp` is the `json.loads`
outcome of the filter LLM reply (`none` = `JSONDecodeError`); any
`TypeError`/`IndexError` during the comprehension falls back to keeping all
results. -/
def applyFilterResp (results : List SearchResult) (resp : Option Json) :
    List SearchResult :=
  match resp with
  | none => results
  | some j =>
      match pyIter j with
      | none => results
      | some elems =>
          match selPositions results.length elems with
          | none => results
          | some ps => ps.map (fun p => results.getD p default)

/-- `filter_node` from `graph.py`: empty input short-circuits (no model
call); otherwise the LLM reply selects results, falling back to all of
them, and `sources_used = len(filtered)`. -/
def filter_node (env : Env) (s : ResearchState) : ResearchState :=
  if s.search_results.isEmpty then
    { s with filtered_results := [], sources_used := 0 }
  else
    let filtered := applyFilterResp s.search_results env.filterResp
    { s with filtered_results := filtered, sources_used := filtered.length }

/-- `synthesize_node` from `graph.py`: empty filtered input short-circuits
with empty text and the run-level error (no model call); otherwise the
`k`-th LLM reply (post `.strip()`/fence removal) becomes `synthesis_raw`. -/
def synthesize_node (env : Env) (k : Nat) (s : ResearchState) : ResearchState :=
  if s.filtered_results.isEmpty then
    { s with synthesis_raw := RawText.empty, error := "No search results available" }
  else
    { s with synthesis_raw := env.synthResp k }

/-- Whether the second character list is an initial segment of the
first. -/
def charsLeadWith : List Char → List Char → Bool
  | _, [] => true
  | [], _ :: _ => false
  | c :: cs, p :: ps => c == p && charsLeadWith cs ps

/-- Whether `pat` occurs as a substring of `s` (Python `pat in s`), used for
`"metadata" in data` when `data` is a string. -/
def strContains (s pat : String) : Bool :=
  (List.range (s.toList.length + 1)).any
    (fun i => charsLeadWith (s.toList.drop i) pat.toList)

/-- The metadata-injection block of `validate_node`:
`if "metadata" in data:` followed by three item assignments.  `in` on a
non-container raises `TypeError`; assignment on a non-dict
`data["metadata"]` raises `TypeError`; both land in the surrounding
`except`.  `"metadata" in data` is key membership for dicts, element
membership for lists and substring search for strings. -/
def injectMetadata (elapsed : Rat) (rc : Nat) : Json → Except String Json
  | .jobj fs =>
      match dictGet fs "metadata" with
      | none => .ok (.jobj fs)
      | some (.jobj m) =>
          let m' := dictSet (dictSet (dictSet m
                      "query_time_seconds" (.jfloat elapsed))
                      "retry_count" (.jint (rc : Int)))
                      "parse_success" (.jbool true)
          .ok (.jobj (dictSet fs "metadata" (.jobj m')))
      | some _ => .error "TypeError: metadata does not support item assignment"
  | .jarr xs =>
      if xs.any (fun x => match x with | .jstr s => s = "metadata" | _ => false) then
        .error "TypeError: list indices must be integers"
      else .ok (.jarr xs)
  | .jstr s =>
      if strContains s "metadata" then
        .error "TypeError: string indices must be integers"
      else .ok (.jstr s)
  | _ => .error "TypeError: argument is not a container"

/-- The whole `try` body of `validate_node` after `json.loads` succeeded:
inject the timing/retry metadata, then run Pydantic validation. -/
def injectAndValidate (ctx : ValidCtx) (elapsed : Rat) (rc : Nat) (j : Json) :
    Except String ResearchSummary := do
  let j' ← injectMetadata elapsed rc j
  ResearchSummary.fromJson ctx j'

/-- `validate_node` from `graph.py`: empty text fails immediately with
`"Empty synthesis"` and does not touch `retry_count`; a `JSONDecodeError`
or any exception out of injection/validation yields a null output,
`retry_count + 1` and the error text; success stores the dumped summary and
clears the error. -/
def validate_node (env : Env) (k : Nat) (s : ResearchState) : ResearchState :=
  match s.synthesis_raw with
  | .empty => { s with validated_output := none, error := "Empty synthesis" }
  | .malformed msg =>
      { s with
        validated_output := none
        retry_count := s.retry_count + 1
        error := msg }
  | .wellFormed j =>
      match injectAndValidate env.ctx (env.elapsed k) s.retry_count j with
      | .ok summary => { s with validated_output := some summary, error := "" }
      | .error e =>
          { s with
            validated_output := none
            retry_count := s.retry_count + 1
            error := e }

/-- `should_retry` from `graph.py`. -/
def should_retry (s : ResearchState) : String :=
  if s.validated_output.isSome then "end"
  else if MAX_VALIDATION_RETRIES ≤ s.retry_count then "end"
  else "retry"

/-- Which node the compiled LangGraph is about to execute. -/
inductive Phase where
  | searching
  | filtering
  | synthesizing
  | validating
  | done
deriving DecidableEq, Repr, BEq

/-- The compiled graph's execution state: next node, number of completed
synthesize/validate rounds, and the threaded `ResearchState`. -/
structure Machine where
  phase : Phase
  attempt : Nat
  st : ResearchState

/-- `initial_state` from `run_research`. -/
def initialState (q : String) : ResearchState :=
  { query := q
    search_results := []
    filtered_results := []
    synthesis_raw := RawText.empty
    validated_output := none
    tools_used := []
    sources_found := 0
    sources_used := 0
    retry_count := 0
    error := "" }

/-- The machine at graph entry (`set_entry_point("search")`). -/
def initMachine (q : String) : Machine := ⟨.searching, 0, initialState q⟩

/-- One LangGraph super-step of the compiled graph: the linear edges
`search → filter → synthesize → validate` and the conditional edge
`validate → END | synthesize` decided by `should_retry`. -/
def step (env : Env) (m : Machine) : Machine :=
  match m.phase with
  | .searching => ⟨.filtering, m.attempt, search_node env m.st⟩
  | .filtering => ⟨.synthesizing, m.attempt, filter_node env m.st⟩
  | .synthesizing => ⟨.validating, m.attempt, synthesize_node env m.attempt m.st⟩
  | .validating =>
      let s' := validate_node env m.attempt m.st
      if should_retry s' = "end" then ⟨.done, m.attempt + 1, s'⟩
      else ⟨.synthesizing, m.attempt + 1, s'⟩
  | .done => m

/-- The machine after `n` super-steps of `graph.invoke` on `run_research`'s
initial state; `run_research` returns `(machineAfter env q n).st` for the
first `n` with phase `done`, and LangGraph raises `GraphRecursionError` if
no such `n` exists below its recursion limit. -/
def machineAfter (env : Env) (q : String) : Nat → Machine
  | 0 => initMachine q
  | n + 1 => step env (machineAfter env q n)

/-- How many times the synthesize node has run within the first `n`
super-steps. -/
def synthCount (env : Env) (q : String) (n : Nat) : Nat :=
  ((List.range n).filter
    (fun i => (machineAfter env q i).phase == Phase.synthesizing)).length

/-- The kept filter positions determined by the environment alone (the list
the filter comprehension selects over the aggregated results), `none` when
the fallback is taken. -/
def selOf (env : Env) : Option (List Nat) :=
  match env.filterResp with
  | none => none
  | some j =>
      match pyIter j with
      | none => none
      | some elems => selPositions (aggregateOf env).length elems


/-- Inversion for a successful `Except` bind. -/
theorem bindOk {α β : Type} {x : Except String α} {f : α → Except String β} {b : β}
    (h : (x >>= f) = .ok b) : ∃ a, x = .ok a ∧ f a = .ok b := by
  cases x with
  | ok a => exact ⟨a, rfl, h⟩
  | error e => exact absurd h (by simp [Bind.bind, Except.bind])

theorem validateList_mem {α : Type} {f : Json → Except String α} :
    ∀ {xs : List Json} {ys : List α}, validateList f xs = .ok ys →
      ∀ y ∈ ys, ∃ x ∈ xs, f x = .ok y := by
  intro xs
  induction xs with
  | nil =>
      intro ys h y hy
      simp only [validateList] at h
      injection h with h
      subst h
      simp at hy
  | cons x xs ih =>
      intro ys h y hy
      simp only [validateList] at h
      obtain ⟨a, ha, h⟩ := bindOk h
      obtain ⟨as, has, h⟩ := bindOk h
      injection h with h
      subst h
      rcases List.mem_cons.mp hy with heq | hy
      · exact ⟨x, by simp, by rw [heq]; exact ha⟩
      · obtain ⟨x', hx', hfx'⟩ := ih has y hy
        exact ⟨x', by simp [hx'], hfx'⟩

theorem yearField_ok {ctx : ValidCtx} {fs : List (String × Json)} {year : Option Int}
    (h : yearField ctx fs = .ok year) :
    ∀ y, year = some y → 1900 ≤ y ∧ y ≤ ctx.currentYear + 1 := by
  intro y hy
  subst hy
  unfold yearField at h
  split at h
  · cases h
  · cases h
  · rename_i y0 heq
    split at h
    · rename_i hr
      injection h with h
      injection h with h
      exact h ▸ hr
    · cases h
  · cases h

theorem chkConfidence_ok {q q' : Rat} (h : chkConfidence q = .ok q') :
    0 ≤ q' ∧ q' ≤ 1 := by
  unfold chkConfidence at h
  split at h
  · rename_i hr
    injection h with h
    exact h ▸ hr
  · cases h

theorem chkSummaryLen_ok {s s' : String} (h : chkSummaryLen s = .ok s') :
    50 ≤ s'.length := by
  unfold chkSummaryLen at h
  split at h
  · rename_i hr
    injection h with h
    exact h ▸ hr
  · cases h

theorem chkFindingsNonempty_ok {l l' : List Finding}
    (h : chkFindingsNonempty l = .ok l') : l' ≠ [] := by
  unfold chkFindingsNonempty at h
  split at h
  · cases h
  · rename_i hr
    injection h with h
    subst h
    simpa [List.isEmpty_iff] using hr

theorem optCitationsField_ok {ctx : ValidCtx} {fs : List (String × Json)}
    {key : String} {cs : List Citation}
    (h : optCitationsField ctx fs key = .ok cs) :
    ∀ c ∈ cs, ∃ jc, Citation.fromJson ctx jc = .ok c := by
  unfold optCitationsField at h
  split at h
  · injection h with h
    subst h
    simp
  · rename_i v hv
    obtain ⟨xs, hxs, h⟩ := bindOk h
    intro c hc
    obtain ⟨jc, _, hjc⟩ := validateList_mem h c hc
    exact ⟨jc, hjc⟩

theorem citationFromJson_year {ctx : ValidCtx} {j : Json} {c : Citation}
    (h : Citation.fromJson ctx j = .ok c) :
    ∀ y, c.year = some y → 1900 ≤ y ∧ y ≤ ctx.currentYear + 1 := by
  cases j with
  | jobj fs =>
      simp only [Citation.fromJson] at h
      obtain ⟨author, ha, h⟩ := bindOk h
      obtain ⟨title, ht, h⟩ := bindOk h
      obtain ⟨url, hu, h⟩ := bindOk h
      obtain ⟨year, hy, h⟩ := bindOk h
      obtain ⟨st, hs, h⟩ := bindOk h
      injection h with h
      subst h
      exact yearField_ok hy
  | null => cases h
  | jbool b => cases h
  | jint i => cases h
  | jfloat q => cases h
  | jstr s => cases h
  | jarr xs => cases h

theorem findingFromJson_ok {ctx : ValidCtx} {j : Json} {f : Finding}
    (h : Finding.fromJson ctx j = .ok f) :
    (0 ≤ f.confidence ∧ f.confidence ≤ 1) ∧
    ∀ c ∈ f.citations, ∀ y, c.year = some y →
      1900 ≤ y ∧ y ≤ ctx.currentYear + 1 := by
  cases j with
  | jobj fs =>
      simp only [Finding.fromJson] at h
      obtain ⟨claim, hc, h⟩ := bindOk h
      obtain ⟨evidence, he, h⟩ := bindOk h
      obtain ⟨conf, hconf, h⟩ := bindOk h
      obtain ⟨cits, hcits, h⟩ := bindOk h
      injection h with h
      subst h
      obtain ⟨v, hv, hconf⟩ := bindOk hconf
      refine ⟨chkConfidence_ok hconf, ?_⟩
      intro c hc' y hy
      obtain ⟨jc, hjc⟩ := optCitationsField_ok hcits c hc'
      exact citationFromJson_year hjc y hy
  | null => cases h
  | jbool b => cases h
  | jint i => cases h
  | jfloat q => cases h
  | jstr s => cases h
  | jarr xs => cases h

theorem qmFromJson_fields {ctx : ValidCtx} {fs : List (String × Json)}
    {qm : QueryMetadata} (h : QueryMetadata.fromJson ctx (.jobj fs) = .ok qm) :
    (∀ x, dictGet fs "query_time_seconds" = some (.jfloat x) →
       qm.query_time_seconds = x) ∧
    (∀ i, dictGet fs "retry_count" = some (.jint i) → 0 ≤ i →
       qm.retry_count = i) ∧
    (∀ b, dictGet fs "parse_success" = some (.jbool b) → qm.parse_success = b) := by
  simp only [QueryMetadata.fromJson] at h
  obtain ⟨qts, hqts, h⟩ := bindOk h
  obtain ⟨sf, hsf, h⟩ := bindOk h
  obtain ⟨su, hsu, h⟩ := bindOk h
  obtain ⟨tools, htools, h⟩ := bindOk h
  obtain ⟨ts, hts, h⟩ := bindOk h
  obtain ⟨ps, hps, h⟩ := bindOk h
  obtain ⟨rc, hrc, h⟩ := bindOk h
  injection h with h
  subst h
  refine ⟨?_, ?_, ?_⟩
  · intro x hx
    obtain ⟨v, hv, hqts⟩ := bindOk hqts
    obtain ⟨w, hw, hv⟩ := bindOk hv
    rw [reqField, hx] at hw
    injection hw with hw
    subst hw
    have hv2 : x = v := by simpa [getFloat] using hv
    subst hv2
    unfold chkNonnegFloat at hqts
    split at hqts
    · injection hqts with hqts
      exact hqts.symm
    · cases hqts
  · intro i hi hnn
    unfold rcField at hrc
    obtain ⟨v, hv, hrc⟩ := bindOk hrc
    rw [hi] at hv
    have hv2 : i = v := by simpa [getInt] using hv
    subst hv2
    unfold chkNonnegInt at hrc
    rw [if_pos hnn] at hrc
    injection hrc with hrc
    exact hrc.symm
  · intro b hb
    unfold psField at hps
    rw [hb] at hps
    have hps2 : b = ps := by simpa [getBool] using hps
    exact hps2.symm

theorem rsFromJson_ok {ctx : ValidCtx} {j : Json} {r : ResearchSummary}
    (h : ResearchSummary.fromJson ctx j = .ok r) :
    50 ≤ r.summary.length ∧ r.findings ≠ [] ∧
    (∀ f ∈ r.findings, ∃ jf, Finding.fromJson ctx jf = .ok f) ∧
    (∀ c ∈ r.sources, ∃ jc, Citation.fromJson ctx jc = .ok c) ∧
    (∀ fs mj, j = .jobj fs → dictGet fs "metadata" = some mj →
       QueryMetadata.fromJson ctx mj = .ok r.metadata) := by
  cases j with
  | jobj fs =>
      simp only [ResearchSummary.fromJson] at h
      obtain ⟨topic, htopic, h⟩ := bindOk h
      obtain ⟨query, hquery, h⟩ := bindOk h
      obtain ⟨summary, hsummary, h⟩ := bindOk h
      obtain ⟨findings, hfindings, h⟩ := bindOk h
      obtain ⟨sources, hsources, h⟩ := bindOk h
      obtain ⟨tools, htools, h⟩ := bindOk h
      obtain ⟨md, hmd, h⟩ := bindOk h
      injection h with h
      subst h
      obtain ⟨s0, hs0, hsummary⟩ := bindOk hsummary
      obtain ⟨fl0, hfl0, hfindings⟩ := bindOk hfindings
      refine ⟨chkSummaryLen_ok hsummary, chkFindingsNonempty_ok hfindings, ?_, ?_, ?_⟩
      · intro f hf
        have hfl : fl0 = findings := by
          unfold chkFindingsNonempty at hfindings
          split at hfindings
          · cases hfindings
          · exact Except.ok.inj hfindings
        subst hfl
        obtain ⟨jl, hjl, hfl0⟩ := bindOk hfl0
        obtain ⟨jf, _, hjf⟩ := validateList_mem hfl0 f hf
        exact ⟨jf, hjf⟩
      · intro c hc
        obtain ⟨jc, hjc⟩ := optCitationsField_ok hsources c hc
        exact ⟨jc, hjc⟩
      · intro fs2 mj heq hget
        injection heq with heq
        subst heq
        obtain ⟨v, hv, hmd⟩ := bindOk hmd
        rw [reqField, hget] at hv
        injection hv with hv
        subst hv
        exact hmd
  | null => cases h
  | jbool b => cases h
  | jint i => cases h
  | jfloat q => cases h
  | jstr s => cases h
  | jarr xs => cases h

theorem dictGet_dictSet_self (fs : List (String × Json)) (k : String) (v : Json) :
    dictGet (dictSet fs k v) k = some v := by
  induction fs with
  | nil => simp [dictGet, dictSet]
  | cons p rest ih =>
      obtain ⟨k1, v1⟩ := p
      unfold dictSet
      split
      · simp [dictGet]
      · rename_i hne
        unfold dictGet
        rw [if_neg hne]
        exact ih

theorem dictGet_dictSet_ne (fs : List (String × Json)) {k k2 : String} (v : Json)
    (h : k2 ≠ k) : dictGet (dictSet fs k v) k2 = dictGet fs k2 := by
  induction fs with
  | nil => simp [dictGet, dictSet, Ne.symm h]
  | cons p rest ih =>
      obtain ⟨k1, v1⟩ := p
      unfold dictSet
      split
      · rename_i heq
        subst heq
        simp [dictGet, h, Ne.symm h]
      · unfold dictGet
        split
        · rfl
        · exact ih

/-- The three assignments of `validate_node`'s injection block, when the
parsed JSON is an object with an object-valued `metadata` key. -/
theorem injectMetadata_obj {fs m : List (String × Json)} {elapsed : Rat} {rc : Nat}
    (hm : dictGet fs "metadata" = some (.jobj m)) :
    injectMetadata elapsed rc (.jobj fs) =
      .ok (.jobj (dictSet fs "metadata" (.jobj
        (dictSet (dictSet (dictSet m
          "query_time_seconds" (.jfloat elapsed))
          "retry_count" (.jint (rc : Int)))
          "parse_success" (.jbool true))))) := by
  simp only [injectMetadata, hm]

/-- The injected metadata object stores exactly the three overwritten
values. -/
theorem dictGet_injected (m : List (String × Json)) (elapsed : Rat) (rc : Int) :
    dictGet (dictSet (dictSet (dictSet m
        "query_time_seconds" (.jfloat elapsed))
        "retry_count" (.jint rc))
        "parse_success" (.jbool true)) "query_time_seconds" =
      some (.jfloat elapsed) ∧
    dictGet (dictSet (dictSet (dictSet m
        "query_time_seconds" (.jfloat elapsed))
        "retry_count" (.jint rc))
        "parse_success" (.jbool true)) "retry_count" = some (.jint rc) ∧
    dictGet (dictSet (dictSet (dictSet m
        "query_time_seconds" (.jfloat elapsed))
        "retry_count" (.jint rc))
        "parse_success" (.jbool true)) "parse_success" = some (.jbool true) := by
  refine ⟨?_, ?_, ?_⟩
  · rw [dictGet_dictSet_ne _ _ (by decide), dictGet_dictSet_ne _ _ (by decide),
      dictGet_dictSet_self]
  · rw [dictGet_dictSet_ne _ _ (by decide), dictGet_dictSet_self]
  · rw [dictGet_dictSet_self]

/-- Definitional equations of `idxEval`. -/
theorem idxEval_jint (n : Nat) (i : Int) :
    idxEval n (.jint i) =
      if 1 ≤ i ∧ i ≤ (n : Int) then some (some (i - 1).toNat) else some none := rfl

theorem idxEval_jbool (n : Nat) (b : Bool) :
    idxEval n (.jbool b) =
      if b = true ∧ 1 ≤ n then some (some 0) else some none := rfl

theorem idxEval_jfloat (n : Nat) (q : Rat) :
    idxEval n (.jfloat q) =
      if 1 ≤ q ∧ q ≤ (n : Rat) then none else some none := rfl

/-- Every position kept by the filter comprehension indexes into the
result list. -/
theorem selPositions_lt {n : Nat} :
    ∀ {elems : List Json} {ps : List Nat}, selPositions n elems = some ps →
      ∀ p ∈ ps, p < n := by
  intro elems
  induction elems with
  | nil =>
      intro ps h p hp
      simp only [selPositions] at h
      injection h with h
      subst h
      simp at hp
  | cons e rest ih =>
      intro ps h p hp
      simp only [selPositions] at h
      rcases he : idxEval n e with _ | oe
      · rw [he] at h; cases h
      · rw [he] at h
        cases oe with
        | none => exact ih h p hp
        | some p0 =>
            rcases hr : selPositions n rest with _ | ps0
            · rw [hr] at h; cases h
            · rw [hr] at h
              injection h with h
              subst h
              rcases List.mem_cons.mp hp with heq | hp0
              · subst heq
                cases e with
                | jint i =>
                    rw [idxEval_jint] at he
                    split at he
                    · rename_i hc
                      injection he with he
                      injection he with he
                      subst he
                      omega
                    · injection he with he
                      cases he
                | jbool b =>
                    rw [idxEval_jbool] at he
                    split at he
                    · rename_i hc
                      injection he with he
                      injection he with he
                      subst he
                      omega
                    · injection he with he
                      cases he
                | jfloat q =>
                    rw [idxEval_jfloat] at he
                    split at he
                    · cases he
                    · injection he with he
                      cases he
                | null => exact Option.noConfusion he
                | jstr s => exact Option.noConfusion he
                | jarr xs => exact Option.noConfusion he
                | jobj fs => exact Option.noConfusion he
              · exact ih hr p hp0

/-- A duplicate-free list of positions below `n` has length at most `n`. -/
theorem nodup_length_le {ps : List Nat} {n : Nat} (hnd : ps.Nodup)
    (hlt : ∀ p ∈ ps, p < n) : ps.length ≤ n := by
  have hsub : ps.toFinset ⊆ Finset.range n := by
    intro p hp
    rw [List.mem_toFinset] at hp
    exact Finset.mem_range.mpr (hlt p hp)
  have := Finset.card_le_card hsub
  rwa [List.toFinset_card_of_nodup hnd, Finset.card_range] at this

/-- Definitional equation of `applyFilterResp` on a parsed reply. -/
theorem applyFilterResp_some (results : List SearchResult) (j : Json) :
    applyFilterResp results (some j) =
      match pyIter j with
      | none => results
      | some elems =>
          match selPositions results.length elems with
          | none => results
          | some ps => ps.map (fun p => results.getD p default) := rfl

/-- The filter fallback and selection both keep at most all results,
provided the selected positions are duplicate-free. -/
theorem applyFilterResp_length {results : List SearchResult} {resp : Option Json}
    (hnd : ∀ j elems ps, resp = some j → pyIter j = some elems →
      selPositions results.length elems = some ps → ps.Nodup) :
    (applyFilterResp results resp).length ≤ results.length := by
  rcases resp with _ | j
  · exact Nat.le_refl _
  · rcases hit : pyIter j with _ | elems
    · simp only [applyFilterResp_some, hit]
      exact Nat.le_refl _
    · rcases hsel : selPositions results.length elems with _ | ps
      · simp only [applyFilterResp_some, hit, hsel]
        exact Nat.le_refl _
      · simp only [applyFilterResp_some, hit, hsel, List.length_map]
        exact nodup_length_le (hnd j elems ps rfl hit hsel)
          (selPositions_lt hsel)

/-- Unfolding one super-step. -/
theorem machineAfter_succ (env : Env) (q : String) (n : Nat) :
    machineAfter env q (n + 1) = step env (machineAfter env q n) := rfl

/-- Step equation at the `search` node. -/
theorem step_phase_searching {env : Env} {m : Machine} (h : m.phase = .searching) :
    step env m = ⟨.filtering, m.attempt, search_node env m.st⟩ := by
  unfold step
  rw [h]

/-- Step equation at the `filter` node. -/
theorem step_phase_filtering {env : Env} {m : Machine} (h : m.phase = .filtering) :
    step env m = ⟨.synthesizing, m.attempt, filter_node env m.st⟩ := by
  unfold step
  rw [h]

/-- Step equation at the `synthesize` node. -/
theorem step_phase_synthesizing {env : Env} {m : Machine}
    (h : m.phase = .synthesizing) :
    step env m = ⟨.validating, m.attempt, synthesize_node env m.attempt m.st⟩ := by
  unfold step
  rw [h]

/-- Step equation at the `validate` node with its conditional edge. -/
theorem step_phase_validating {env : Env} {m : Machine}
    (h : m.phase = .validating) :
    step env m =
      if should_retry (validate_node env m.attempt m.st) = "end" then
        ⟨.done, m.attempt + 1, validate_node env m.attempt m.st⟩
      else
        ⟨.synthesizing, m.attempt + 1, validate_node env m.attempt m.st⟩ := by
  unfold step
  rw [h]

/-- Step equation at `END`. -/
theorem step_phase_done {env : Env} {m : Machine} (h : m.phase = .done) :
    step env m = m := by
  unfold step
  rw [h]

/-- A state the conditional edge routed to `END` is terminal. -/
theorem done_stable (env : Env) (q : String) (n : Nat)
    (h : (machineAfter env q n).phase = .done) :
    ∀ m, machineAfter env q (n + m) = machineAfter env q n := by
  intro m
  induction m with
  | zero => rfl
  | succ m ih =>
      have hnm : n + (m + 1) = (n + m) + 1 := rfl
      rw [hnm, machineAfter_succ, ih, step_phase_done h]

/-- `validate_node` on empty synthesis text: null output, the
`"Empty synthesis"` error, and no change to `retry_count`. -/
theorem validate_node_empty (env : Env) (k : Nat) (s : ResearchState)
    (h : s.synthesis_raw = RawText.empty) :
    validate_node env k s =
      { s with validated_output := none, error := "Empty synthesis" } := by
  unfold validate_node
  rw [h]

/-- `validate_node` on text `json.loads` rejects: null output, incremented
`retry_count`, the decode error recorded. -/
theorem validate_node_malformed (env : Env) (k : Nat) (s : ResearchState)
    (msg : String) (h : s.synthesis_raw = RawText.malformed msg) :
    validate_node env k s =
      { s with
        validated_output := none
        retry_count := s.retry_count + 1
        error := msg } := by
  unfold validate_node
  rw [h]

/-- `validate_node` on parsed text: the injected document is validated. -/
theorem validate_node_wellFormed (env : Env) (k : Nat) (s : ResearchState)
    (j : Json) (h : s.synthesis_raw = RawText.wellFormed j) :
    validate_node env k s =
      match injectAndValidate env.ctx (env.elapsed k) s.retry_count j with
      | .ok summary => { s with validated_output := some summary, error := "" }
      | .error e =>
          { s with
            validated_output := none
            retry_count := s.retry_count + 1
            error := e } := by
  unfold validate_node
  rw [h]

/-- `validate_node` increments `retry_count` by at most one. -/
theorem validate_node_retry_le (env : Env) (k : Nat) (s : ResearchState) :
    (validate_node env k s).retry_count ≤ s.retry_count + 1 := by
  rcases h : s.synthesis_raw with _ | msg | j
  · rw [validate_node_empty env k s h]
    exact Nat.le_succ _
  · rw [validate_node_malformed env k s msg h]
  · rw [validate_node_wellFormed env k s j h]
    rcases injectAndValidate env.ctx (env.elapsed k) s.retry_count j with e | r
    · exact Nat.le_refl _
    · exact Nat.le_succ _

/-- `validate_node` does not touch the source counters. -/
theorem validate_node_sources (env : Env) (k : Nat) (s : ResearchState) :
    (validate_node env k s).sources_used = s.sources_used ∧
    (validate_node env k s).sources_found = s.sources_found := by
  rcases h : s.synthesis_raw with _ | msg | j
  · rw [validate_node_empty env k s h]
    exact ⟨rfl, rfl⟩
  · rw [validate_node_malformed env k s msg h]
    exact ⟨rfl, rfl⟩
  · rw [validate_node_wellFormed env k s j h]
    rcases injectAndValidate env.ctx (env.elapsed k) s.retry_count j with e | r
    · exact ⟨rfl, rfl⟩
    · exact ⟨rfl, rfl⟩

/-- `filter_node` only writes `filtered_results` and `sources_used`. -/
theorem filter_node_retry (env : Env) (s : ResearchState) :
    (filter_node env s).retry_count = s.retry_count := by
  unfold filter_node
  split
  · rfl
  · rfl

theorem filter_node_output (env : Env) (s : ResearchState) :
    (filter_node env s).validated_output = s.validated_output := by
  unfold filter_node
  split
  · rfl
  · rfl

theorem filter_node_found (env : Env) (s : ResearchState) :
    (filter_node env s).sources_found = s.sources_found := by
  unfold filter_node
  split
  · rfl
  · rfl

/-- `synthesize_node` only writes `synthesis_raw` and possibly `error`. -/
theorem synthesize_node_retry (env : Env) (k : Nat) (s : ResearchState) :
    (synthesize_node env k s).retry_count = s.retry_count := by
  unfold synthesize_node
  split
  · rfl
  · rfl

theorem synthesize_node_output (env : Env) (k : Nat) (s : ResearchState) :
    (synthesize_node env k s).validated_output = s.validated_output := by
  unfold synthesize_node
  split
  · rfl
  · rfl

theorem synthesize_node_sources (env : Env) (k : Nat) (s : ResearchState) :
    (synthesize_node env k s).sources_used = s.sources_used ∧
    (synthesize_node env k s).sources_found = s.sources_found := by
  unfold synthesize_node
  split
  · exact ⟨rfl, rfl⟩
  · exact ⟨rfl, rfl⟩

/-- The synthesis text after the `synthesize` node. -/
theorem synthesize_node_raw (env : Env) (k : Nat) (s : ResearchState) :
    (synthesize_node env k s).synthesis_raw =
      if s.filtered_results.isEmpty then RawText.empty else env.synthResp k := by
  unfold synthesize_node
  split
  · rfl
  · rfl

/-- Inversion of the conditional edge: if it does not route to `END`, the
validated output is null and the counter is still below the maximum. -/
theorem should_retry_retry {s : ResearchState} (h : should_retry s ≠ "end") :
    s.validated_output = none ∧ s.retry_count < MAX_VALIDATION_RETRIES := by
  unfold should_retry at h
  split at h
  · exact absurd rfl h
  · split at h
    · exact absurd rfl h
    · rename_i hsome hlt
      refine ⟨Option.not_isSome_iff_eq_none.mp (by simpa using hsome), ?_⟩
      omega

/-- `retry_count` never exceeds `MAX_VALIDATION_RETRIES`, in any run, and
is at most 1 before the run reaches `END`. -/
theorem retry_count_bound (env : Env) (q : String) : ∀ n,
    (machineAfter env q n).st.retry_count ≤ MAX_VALIDATION_RETRIES ∧
    ((machineAfter env q n).phase ≠ .done →
      (machineAfter env q n).st.retry_count ≤ 1) := by
  intro n
  induction n with
  | zero => exact ⟨Nat.zero_le _, fun _ => Nat.zero_le _⟩
  | succ n ih =>
      obtain ⟨ih1, ih2⟩ := ih
      rw [machineAfter_succ]
      rcases hph : (machineAfter env q n).phase with _ | _ | _ | _ | _
      · have h0 := ih2 (by rw [hph]; intro hc; cases hc)
        rw [step_phase_searching hph]
        exact ⟨Nat.le_trans h0 (by decide), fun _ => h0⟩
      · have h0 := ih2 (by rw [hph]; intro hc; cases hc)
        rw [step_phase_filtering hph]
        refine ⟨?_, fun _ => ?_⟩
        · show (filter_node env (machineAfter env q n).st).retry_count ≤
            MAX_VALIDATION_RETRIES
          rw [filter_node_retry]
          exact Nat.le_trans h0 (by decide)
        · show (filter_node env (machineAfter env q n).st).retry_count ≤ 1
          rw [filter_node_retry]
          exact h0
      · have h0 := ih2 (by rw [hph]; intro hc; cases hc)
        rw [step_phase_synthesizing hph]
        refine ⟨?_, fun _ => ?_⟩
        · show (synthesize_node env (machineAfter env q n).attempt
            (machineAfter env q n).st).retry_count ≤ MAX_VALIDATION_RETRIES
          rw [synthesize_node_retry]
          exact Nat.le_trans h0 (by decide)
        · show (synthesize_node env (machineAfter env q n).attempt
            (machineAfter env q n).st).retry_count ≤ 1
          rw [synthesize_node_retry]
          exact h0
      · have h0 := ih2 (by rw [hph]; intro hc; cases hc)
        have hle := validate_node_retry_le env (machineAfter env q n).attempt
          (machineAfter env q n).st
        rw [step_phase_validating hph]
        by_cases hend : should_retry (validate_node env (machineAfter env q n).attempt
            (machineAfter env q n).st) = "end"
        · rw [if_pos hend]
          refine ⟨?_, fun hc => absurd rfl hc⟩
          show (validate_node env (machineAfter env q n).attempt
            (machineAfter env q n).st).retry_count ≤ MAX_VALIDATION_RETRIES
          unfold MAX_VALIDATION_RETRIES
          omega
        · rw [if_neg hend]
          obtain ⟨_, hlt⟩ := should_retry_retry hend
          refine ⟨?_, fun _ => ?_⟩
          · show (validate_node env (machineAfter env q n).attempt
              (machineAfter env q n).st).retry_count ≤ MAX_VALIDATION_RETRIES
            omega
          · show (validate_node env (machineAfter env q n).attempt
              (machineAfter env q n).st).retry_count ≤ 1
            unfold MAX_VALIDATION_RETRIES at hlt
            omega
      · rw [step_phase_done hph]
        exact ⟨ih1, fun hc => absurd hph hc⟩

/-- If every synthesis reply is empty text, the conditional edge loops
between synthesize and validate forever: `END` is never reached, no output
is ever validated, and `retry_count` stays 0. -/
theorem empty_synthesis_loop (env : Env) (q : String)
    (hs : ∀ k, env.synthResp k = RawText.empty) : ∀ n,
    (machineAfter env q n).phase ≠ .done ∧
    (machineAfter env q n).st.validated_output = none ∧
    (machineAfter env q n).st.retry_count = 0 ∧
    ((machineAfter env q n).phase = .validating →
      (machineAfter env q n).st.synthesis_raw = RawText.empty) := by
  intro n
  induction n with
  | zero =>
      exact ⟨fun hc => Phase.noConfusion hc, rfl, rfl, fun hc => Phase.noConfusion hc⟩
  | succ n ih =>
      obtain ⟨ih1, ih2, ih3, ih4⟩ := ih
      rw [machineAfter_succ]
      rcases hph : (machineAfter env q n).phase with _ | _ | _ | _ | _
      · rw [step_phase_searching hph]
        exact ⟨fun hc => Phase.noConfusion hc, ih2, ih3, fun hc => Phase.noConfusion hc⟩
      · rw [step_phase_filtering hph]
        refine ⟨fun hc => Phase.noConfusion hc, ?_, ?_, fun hc => Phase.noConfusion hc⟩
        · show (filter_node env (machineAfter env q n).st).validated_output = none
          rw [filter_node_output]
          exact ih2
        · show (filter_node env (machineAfter env q n).st).retry_count = 0
          rw [filter_node_retry]
          exact ih3
      · rw [step_phase_synthesizing hph]
        refine ⟨fun hc => Phase.noConfusion hc, ?_, ?_, fun _ => ?_⟩
        · show (synthesize_node env (machineAfter env q n).attempt
            (machineAfter env q n).st).validated_output = none
          rw [synthesize_node_output]
          exact ih2
        · show (synthesize_node env (machineAfter env q n).attempt
            (machineAfter env q n).st).retry_count = 0
          rw [synthesize_node_retry]
          exact ih3
        · show (synthesize_node env (machineAfter env q n).attempt
            (machineAfter env q n).st).synthesis_raw = RawText.empty
          rw [synthesize_node_raw]
          split
          · rfl
          · exact hs _
      · have hraw := ih4 hph
        have hval := validate_node_empty env (machineAfter env q n).attempt
          (machineAfter env q n).st hraw
        have hsr : should_retry (validate_node env (machineAfter env q n).attempt
            (machineAfter env q n).st) ≠ "end" := by
          rw [hval]
          unfold should_retry
          rw [if_neg (by simp)]
          rw [if_neg (by simp [ih3, MAX_VALIDATION_RETRIES])]
          decide
        rw [step_phase_validating hph, if_neg hsr]
        refine ⟨fun hc => Phase.noConfusion hc, ?_, ?_, fun hc => Phase.noConfusion hc⟩
        · show (validate_node env (machineAfter env q n).attempt
            (machineAfter env q n).st).validated_output = none
          rw [hval]
        · show (validate_node env (machineAfter env q n).attempt
            (machineAfter env q n).st).retry_count = 0
          rw [hval]
          exact ih3
      · exact absurd hph ih1

/-- `selOf` unfolded on a parsed, iterable reply. -/
theorem selOf_eq {env : Env} {j : Json} {elems : List Json}
    (hj : env.filterResp = some j) (hit : pyIter j = some elems) :
    selOf env = selPositions (aggregateOf env).length elems := by
  unfold selOf
  rw [hj]
  show (match pyIter j with
    | none => none
    | some elems => selPositions (aggregateOf env).length elems) = _
  rw [hit]

/-- On an array of integer indices the comprehension keeps exactly the
in-range ones, in order. -/
theorem selPositions_ints (n : Nat) (l : List Int) :
    selPositions n (l.map Json.jint) =
      some ((l.filter (fun i => decide (1 ≤ i ∧ i ≤ (n : Int)))).map
        (fun i => (i - 1).toNat)) := by
  induction l with
  | nil => rfl
  | cons i rest ih =>
      simp only [List.map_cons, selPositions, idxEval_jint]
      by_cases hc : 1 ≤ i ∧ i ≤ (n : Int)
      · rw [if_pos hc, ih]
        simp [List.filter_cons, hc]
      · rw [if_neg hc, ih]
        simp [List.filter_cons, hc]

/-- With a duplicate-free filter selection, `sources_used ≤ sources_found`
holds at every reachable state (together with the auxiliary facts the
induction needs about the search and filter stages). -/
theorem sources_invariant (env : Env) (q : String)
    (hnd : ∀ ps, selOf env = some ps → ps.Nodup) : ∀ n,
    (machineAfter env q n).st.sources_used ≤
      (machineAfter env q n).st.sources_found ∧
    ((machineAfter env q n).phase = .searching →
      (machineAfter env q n).st = initialState q) ∧
    ((machineAfter env q n).phase = .filtering →
      (machineAfter env q n).st.sources_used = 0 ∧
      (machineAfter env q n).st.search_results = aggregateOf env ∧
      (machineAfter env q n).st.sources_found =
        (machineAfter env q n).st.search_results.length) := by
  intro n
  induction n with
  | zero =>
      exact ⟨Nat.le_refl _, fun _ => rfl, fun hc => Phase.noConfusion hc⟩
  | succ n ih =>
      obtain ⟨ih1, ih2, ih3⟩ := ih
      rw [machineAfter_succ]
      rcases hph : (machineAfter env q n).phase with _ | _ | _ | _ | _
      · have hst := ih2 hph
        rw [step_phase_searching hph]
        refine ⟨?_, fun hc => Phase.noConfusion hc, fun _ => ⟨?_, rfl, rfl⟩⟩
        · show (search_node env (machineAfter env q n).st).sources_used ≤
            (search_node env (machineAfter env q n).st).sources_found
          rw [hst]
          exact Nat.zero_le _
        · show (search_node env (machineAfter env q n).st).sources_used = 0
          rw [hst]
          exact rfl
      · obtain ⟨hu0, hsr, hsf⟩ := ih3 hph
        rw [step_phase_filtering hph]
        refine ⟨?_, fun hc => Phase.noConfusion hc, fun hc => Phase.noConfusion hc⟩
        show (filter_node env (machineAfter env q n).st).sources_used ≤
          (filter_node env (machineAfter env q n).st).sources_found
        rw [filter_node_found]
        unfold filter_node
        split
        · exact Nat.zero_le _
        · show (applyFilterResp (machineAfter env q n).st.search_results
            env.filterResp).length ≤ (machineAfter env q n).st.sources_found
          rw [hsf]
          apply applyFilterResp_length
          intro j elems ps hj hit hsel
          apply hnd ps
          rw [selOf_eq hj hit, ← hsr]
          exact hsel
      · rw [step_phase_synthesizing hph]
        obtain ⟨hu, hf⟩ := synthesize_node_sources env
          (machineAfter env q n).attempt (machineAfter env q n).st
        refine ⟨?_, fun hc => Phase.noConfusion hc, fun hc => Phase.noConfusion hc⟩
        show (synthesize_node env (machineAfter env q n).attempt
            (machineAfter env q n).st).sources_used ≤
          (synthesize_node env (machineAfter env q n).attempt
            (machineAfter env q n).st).sources_found
        rw [hu, hf]
        exact ih1
      · rw [step_phase_validating hph]
        obtain ⟨hu, hf⟩ := validate_node_sources env
          (machineAfter env q n).attempt (machineAfter env q n).st
        by_cases hend : should_retry (validate_node env
            (machineAfter env q n).attempt (machineAfter env q n).st) = "end"
        · rw [if_pos hend]
          refine ⟨?_, fun hc => Phase.noConfusion hc, fun hc => Phase.noConfusion hc⟩
          show (validate_node env (machineAfter env q n).attempt
              (machineAfter env q n).st).sources_used ≤
            (validate_node env (machineAfter env q n).attempt
              (machineAfter env q n).st).sources_found
          rw [hu, hf]
          exact ih1
        · rw [if_neg hend]
          refine ⟨?_, fun hc => Phase.noConfusion hc, fun hc => Phase.noConfusion hc⟩
          show (validate_node env (machineAfter env q n).attempt
              (machineAfter env q n).st).sources_used ≤
            (validate_node env (machineAfter env q n).attempt
              (machineAfter env q n).st).sources_found
          rw [hu, hf]
          exact ih1
      · rw [step_phase_done hph]
        exact ⟨ih1, fun hc => Phase.noConfusion (hph.symm.trans hc),
          fun hc => Phase.noConfusion (hph.symm.trans hc)⟩

/-- Decidable equality for `Except` results (used only to evaluate the
embedding at concrete inputs). -/
instance {e a : Type} [DecidableEq e] [DecidableEq a] :
    DecidableEq (Except e a) := fun x y =>
  match x, y with
  | .ok v, .ok w =>
      if h : v = w then isTrue (congrArg Except.ok h)
      else isFalse (fun hc => h (Except.ok.inj hc))
  | .error u, .error u' =>
      if h : u = u' then isTrue (congrArg Except.error h)
      else isFalse (fun hc => h (Except.error.inj hc))
  | .ok _, .error _ => isFalse (fun hc => Except.noConfusion hc)
  | .error _, .ok _ => isFalse (fun hc => Except.noConfusion hc)

/-! ## Concrete collaborator behaviours used in the claim instances -/

/-- A sample DuckDuckGo result. -/
def sampleResult : SearchResult :=
  { title := "t1", url := "u1", snippet := "s1", source := "duckduckgo" }

/-- A second sample result. -/
def sampleResultB : SearchResult :=
  { title := "t2", url := "u2", snippet := "s2", source := "wikipedia" }

/-- A summary string of exactly 50 characters. -/
def summary50 : String := String.mk (List.replicate 50 'a')

/-- The clock values: `datetime.now().year = 2026` and a fixed timestamp. -/
def ctx0 : ValidCtx := { currentYear := 2026, nowTimestamp := "now" }

/-- The metadata object of the sample synthesis document. -/
def validDocMeta : List (String × Json) :=
  [("query_time_seconds", .jint 0),
   ("sources_found", .jint 1),
   ("sources_used", .jint 1),
   ("tools_used", .jarr [.jstr "duckduckgo"]),
   ("parse_success", .jbool true),
   ("retry_count", .jint 0)]

/-- The fields of the sample synthesis document. -/
def validDocFields : List (String × Json) :=
  [("topic", .jstr "t"),
   ("query", .jstr "q"),
   ("summary", .jstr summary50),
   ("findings", .jarr [
     .jobj [("claim", .jstr "c"), ("evidence", .jstr "e"),
            ("confidence", .jfloat (Rat.divInt 1 2)), ("citations", .jarr [])]]),
   ("sources", .jarr []),
   ("tools_used", .jarr [.jstr "duckduckgo"]),
   ("metadata", .jobj validDocMeta)]

/-- A synthesis document that passes `ResearchSummary.model_validate`. -/
def validDoc : Json := .jobj validDocFields

/-- DuckDuckGo succeeds with one result, the other providers raise, the
filter reply is `[1]`, the synthesizer returns malformed JSON on attempts
0 and 1 and `validDoc` from attempt 2 on. -/
def envC3 : Env :=
  { ddgOutcome := some [sampleResult]
    wikiOutcome := none
    arxivOutcome := none
    filterResp := some (.jarr [.jint 1])
    synthResp := fun k =>
      if k ≤ 1 then RawText.malformed "Expecting value" else RawText.wellFormed validDoc
    elapsed := fun _ => 0
    ctx := ctx0 }

/-- Same providers, but the filter reply is unparseable and every
synthesizer reply is whitespace (strips to the empty string). -/
def envWS : Env := { envC3 with filterResp := none, synthResp := fun _ => RawText.empty }

/-- All three search providers raise after their retries. -/
def envAllFail : Env := { envWS with ddgOutcome := none }

/-- Filter reply `[1, 1]`: the same in-range index twice. -/
def envDupIdx : Env := { envC3 with filterResp := some (.jarr [.jint 1, .jint 1]) }

/-- Every synthesizer reply parses to `validDoc`. -/
def env8 : Env := { envC3 with synthResp := fun _ => RawText.wellFormed validDoc }

/-- A state about to validate `validDoc`. -/
def st8 : ResearchState :=
  { initialState "q" with synthesis_raw := RawText.wellFormed validDoc }

/-- A state whose synthesis text raises `JSONDecodeError`. -/
def stMalformed : ResearchState :=
  { initialState "q" with synthesis_raw := RawText.malformed "Expecting value" }

/-- A state whose synthesis text parses but is not an object. -/
def stBadDoc : ResearchState :=
  { initialState "q" with synthesis_raw := RawText.wellFormed (Json.jstr "oops") }

/-- The validated summary `validDoc` produces under `ctx0`, elapsed 0,
retry count 0. -/
def expectedSummary : ResearchSummary :=
  { topic := "t", query := "q", summary := summary50
    findings := [{ claim := "c", evidence := "e",
                   confidence := Rat.divInt 1 2, citations := [] }]
    sources := []
    tools_used := ["duckduckgo"]
    metadata := { query_time_seconds := 0, sources_found := 1, sources_used := 1,
                  tools_used := ["duckduckgo"], timestamp := "now",
                  parse_success := true, retry_count := 0 } }

/-- The placeholder result of `search_duckduckgo` for zero hits. -/
def ddgPlaceholder (query : String) : SearchResult :=
  { title := "DuckDuckGo Search", url := ""
    snippet := "No results found for " ++ query, source := "duckduckgo" }

/-! ## Claims -/

/-- C1: the retry counter does satisfy
`0 ≤ retry_count ≤ MAX_VALIDATION_RETRIES` at every reachable state of
every run, but the synthesizer is NOT invoked at most
`MAX_VALIDATION_RETRIES + 1 = 3` times when it produces empty text: with
whitespace-only replies the empty-synthesis branch of `validate_node` never
increments `retry_count`, the graph never reaches `END`, and the synthesize
node runs more than 3 times (LangGraph's recursion limit then raises
`GraphRecursionError`).  This evaluates the code at the failing input of
the reported bug. -/
theorem C1_retry_bounded_but_attempts_unbounded :
    (∀ env q n, (machineAfter env q n).st.retry_count ≤ MAX_VALIDATION_RETRIES) ∧
    (∀ n, (machineAfter envWS "q" n).phase ≠ Phase.done) ∧
    3 < synthCount envWS "q" 20 := by
  refine ⟨fun env q n => (retry_count_bound env q n).1,
    fun n => (empty_synthesis_loop envWS "q" (fun _ => rfl) n).1, by decide⟩

theorem C1_witness :
    (machineAfter envWS "q" 9).st.retry_count ≤ MAX_VALIDATION_RETRIES ∧
    (machineAfter envWS "q" 9).phase ≠ Phase.done :=
  ⟨C1_retry_bounded_but_attempts_unbounded.1 envWS "q" 9,
   C1_retry_bounded_but_attempts_unbounded.2.1 9⟩

/-- C2: `run_research` does NOT always hand a result record back: when all
search providers fail the aggregated result list is empty, the
synthesize/validate cycle repeats forever without incrementing
`retry_count`, and the compiled graph never reaches `END` — `graph.invoke`
therefore raises `GraphRecursionError` to `run_research`'s caller instead
of returning.  This evaluates the code at the failing input of the
reported bug. -/
theorem C2_run_research_never_reaches_end :
    aggregateOf envAllFail = [] ∧
    (∀ n, (machineAfter envAllFail "q" n).phase ≠ Phase.done) :=
  ⟨rfl, fun n => (empty_synthesis_loop envAllFail "q" (fun _ => rfl) n).1⟩

theorem C2_witness :
    (machineAfter envAllFail "q" 25).phase ≠ Phase.done :=
  C2_run_research_never_reaches_end.2 25

/-- C3: with synthesizer replies (malformed, malformed, valid) the run is
already at `END` after 6 super-steps with a null validated output and
`retry_count = 2`; only 2 synthesis attempts ever happen and the machine
never moves again, even though the third reply would have validated
(`injectAndValidate` succeeds on it).  The claimed successful third attempt
never occurs. -/
theorem C3_no_third_attempt :
    (machineAfter envC3 "q" 6).phase = Phase.done ∧
    (machineAfter envC3 "q" 6).st.validated_output = none ∧
    (machineAfter envC3 "q" 6).st.retry_count = 2 ∧
    (machineAfter envC3 "q" 6).st.error = "Expecting value" ∧
    synthCount envC3 "q" 6 = 2 ∧
    (∀ m, machineAfter envC3 "q" (6 + m) = machineAfter envC3 "q" 6) ∧
    (injectAndValidate ctx0 0 2 validDoc).isOk = true := by
  refine ⟨by decide, rfl, by decide, rfl, by decide,
    done_stable envC3 "q" 6 (by decide), by decide⟩

theorem C3_witness :
    machineAfter envC3 "q" 11 = machineAfter envC3 "q" 6 :=
  C3_no_third_attempt.2.2.2.2.2.1 5

/-- C4 counterexample: with a single search result and the filter reply
`[1, 1]` (a repeated in-range index) the state after the filter stage has
`sources_used = 2 > 1 = sources_found`: the invariant is false for index
lists containing repeated indices. -/
theorem C4_counterexample :
    (machineAfter envDupIdx "q" 2).st.sources_found = 1 ∧
    (machineAfter envDupIdx "q" 2).st.sources_used = 2 ∧
    ¬ ((machineAfter envDupIdx "q" 2).st.sources_used ≤
        (machineAfter envDupIdx "q" 2).st.sources_found) := by
  exact ⟨by decide, by decide, by decide⟩

/-- C4 (amended): `sources_used ≤ sources_found` holds at every reachable
state of a run provided the positions selected by the filter reply are
pairwise distinct; with repeated indices `sources_used` counts the selected
occurrences and can exceed `sources_found`. -/
theorem C4_sources_bound (env : Env) (q : String)
    (hnd : ∀ ps, selOf env = some ps → ps.Nodup) (n : Nat) :
    (machineAfter env q n).st.sources_used ≤
      (machineAfter env q n).st.sources_found :=
  (sources_invariant env q hnd n).1

theorem C4_witness :
    (machineAfter envC3 "q" 3).st.sources_used ≤
      (machineAfter envC3 "q" 3).st.sources_found :=
  C4_sources_bound envC3 "q"
    (fun ps hps => by
      rw [show selOf envC3 = some [0] from rfl] at hps
      injection hps with hps
      rw [← hps]
      decide) 3

/-- C5: a non-empty synthesis text that `json.loads` rejects, and a parsed
text that the injection/validation step rejects, behave identically in
`validate_node`: null output, `retry_count + 1`, and the failure
description stored in `error`. -/
theorem C5_failure_contract (env : Env) (k : Nat) (s : ResearchState) :
    (∀ msg, s.synthesis_raw = RawText.malformed msg →
      (validate_node env k s).validated_output = none ∧
      (validate_node env k s).retry_count = s.retry_count + 1 ∧
      (validate_node env k s).error = msg) ∧
    (∀ j e, s.synthesis_raw = RawText.wellFormed j →
      injectAndValidate env.ctx (env.elapsed k) s.retry_count j = .error e →
      (validate_node env k s).validated_output = none ∧
      (validate_node env k s).retry_count = s.retry_count + 1 ∧
      (validate_node env k s).error = e) := by
  constructor
  · intro msg h
    rw [validate_node_malformed env k s msg h]
    exact ⟨rfl, rfl, rfl⟩
  · intro j e h hh
    rw [validate_node_wellFormed env k s j h, hh]
    exact ⟨rfl, rfl, rfl⟩

theorem C5_witness :
    ((validate_node envC3 0 stMalformed).validated_output = none ∧
      (validate_node envC3 0 stMalformed).retry_count = 1 ∧
      (validate_node envC3 0 stMalformed).error = "Expecting value") ∧
    ((validate_node envC3 0 stBadDoc).validated_output = none ∧
      (validate_node envC3 0 stBadDoc).retry_count = 1 ∧
      (validate_node envC3 0 stBadDoc).error = "summary must be an object") :=
  ⟨(C5_failure_contract envC3 0 stMalformed).1 "Expecting value" rfl,
   (C5_failure_contract envC3 0 stBadDoc).2 (Json.jstr "oops")
     "summary must be an object" rfl (by decide)⟩

/-- C6 counterexample: on empty synthesis text `validate_node` fails
immediately with a null output and an unchanged retry count, but the error
string is `"Empty synthesis"` (capital E), not `"empty synthesis"` as the
claim quotes it. -/
theorem C6_counterexample :
    (initialState "q").synthesis_raw = RawText.empty ∧
    (validate_node envC3 0 (initialState "q")).validated_output = none ∧
    (validate_node envC3 0 (initialState "q")).retry_count =
      (initialState "q").retry_count ∧
    (validate_node envC3 0 (initialState "q")).error = "Empty synthesis" ∧
    (validate_node envC3 0 (initialState "q")).error ≠ "empty synthesis" := by
  exact ⟨rfl, rfl, rfl, rfl, by decide⟩

/-- C6 (amended): on empty synthesis text `validate_node` returns a null
output and the error `"Empty synthesis"` (capitalized), leaving
`retry_count` unchanged. -/
theorem C6_empty_contract (env : Env) (k : Nat) (s : ResearchState)
    (h : s.synthesis_raw = RawText.empty) :
    validate_node env k s =
      { s with validated_output := none, error := "Empty synthesis" } ∧
    (validate_node env k s).retry_count = s.retry_count := by
  refine ⟨validate_node_empty env k s h, ?_⟩
  rw [validate_node_empty env k s h]

theorem C6_witness :
    validate_node envAllFail 0 (initialState "q") =
      { initialState "q" with
        validated_output := none, error := "Empty synthesis" } ∧
    (validate_node envAllFail 0 (initialState "q")).retry_count =
      (initialState "q").retry_count :=
  C6_empty_contract envAllFail 0 (initialState "q") rfl

/-- C7 counterexample: the reply `[2.5]` is not a well-formed JSON array of
integers, yet with one search result `filter` does not fall back to the
original list: `2.5` fails the range test `1 <= i <= 1` and is silently
dropped, leaving the empty list. -/
theorem C7_counterexample :
    applyFilterResp [sampleResult]
      (some (Json.jarr [Json.jfloat (Rat.divInt 5 2)])) = [] ∧
    applyFilterResp [sampleResult]
      (some (Json.jarr [Json.jfloat (Rat.divInt 5 2)])) ≠ [sampleResult] := by
  exact ⟨by decide, by decide⟩

/-- C7 (amended): `filter` keeps the original list exactly when the reply
fails JSON parsing, is not iterable, or some iterated element raises during
the range test or the index lookup; an array of integers selects the
in-range indices in the reply's order, silently dropping out-of-range
elements (out-of-range non-integers are also silently dropped, which is
what falsifies the original claim).  The last conjunct ties the contract to
`filter_node` on non-empty input. -/
theorem C7_filter_contract (results : List SearchResult) (resp : Option Json) :
    (resp = none → applyFilterResp results resp = results) ∧
    (∀ j, resp = some j → pyIter j = none →
      applyFilterResp results resp = results) ∧
    (∀ j elems, resp = some j → pyIter j = some elems →
      selPositions results.length elems = none →
      applyFilterResp results resp = results) ∧
    (∀ l : List Int, resp = some (Json.jarr (l.map Json.jint)) →
      applyFilterResp results resp =
        (l.filter (fun i => decide (1 ≤ i ∧ i ≤ (results.length : Int)))).map
          (fun i => results.getD (i - 1).toNat default)) ∧
    (∀ env s, env.filterResp = resp → s.search_results = results →
      results.isEmpty = false →
      (filter_node env s).filtered_results = applyFilterResp results resp) := by
  refine ⟨?_, ?_, ?_, ?_, ?_⟩
  · intro h
    rw [h]
    rfl
  · intro j hj hit
    rw [hj]
    simp only [applyFilterResp_some, hit]
  · intro j elems hj hit hsel
    rw [hj]
    simp only [applyFilterResp_some, hit, hsel]
  · intro l hl
    rw [hl]
    have hit : pyIter (Json.jarr (l.map Json.jint)) = some (l.map Json.jint) := rfl
    simp only [applyFilterResp_some, hit, selPositions_ints, List.map_map]
    rfl
  · intro env s hresp hsr hne
    unfold filter_node
    rw [hsr, hresp, hne]
    rfl

theorem C7_witness :
    applyFilterResp [sampleResult] none = [sampleResult] ∧
    applyFilterResp [sampleResult] (some (Json.jint 3)) = [sampleResult] ∧
    applyFilterResp [sampleResult, sampleResultB]
      (some (Json.jarr [Json.jstr "x"])) = [sampleResult, sampleResultB] ∧
    applyFilterResp [sampleResult, sampleResultB]
      (some (Json.jarr [Json.jint 2, Json.jint 5])) = [sampleResultB] := by
  refine ⟨(C7_filter_contract [sampleResult] none).1 rfl,
    (C7_filter_contract [sampleResult] (some (Json.jint 3))).2.1
      (Json.jint 3) rfl rfl,
    (C7_filter_contract [sampleResult, sampleResultB]
      (some (Json.jarr [Json.jstr "x"]))).2.2.1
      (Json.jarr [Json.jstr "x"]) [Json.jstr "x"] rfl rfl rfl, ?_⟩
  have h := (C7_filter_contract [sampleResult, sampleResultB]
    (some (Json.jarr [Json.jint 2, Json.jint 5]))).2.2.2.1 [2, 5] rfl
  rw [h]
  decide

/-- C8: on parsed synthesis text the validator first overwrites the
metadata object's `query_time_seconds`, `retry_count` and `parse_success`
fields and only then validates; on success `validate_node` stores the
summary with an unchanged retry count, and the summary satisfies the full
schema: summary length at least 50, non-empty findings, confidences in
`[0, 1]`, present citation years in `[1900, currentYear + 1]`, and — when a
metadata object was present — the overwritten values. -/
theorem C8_inject_then_validate (env : Env) (k : Nat) (s : ResearchState)
    (j : Json) (r : ResearchSummary)
    (hraw : s.synthesis_raw = RawText.wellFormed j)
    (hok : injectAndValidate env.ctx (env.elapsed k) s.retry_count j = .ok r) :
    validate_node env k s = { s with validated_output := some r, error := "" } ∧
    (validate_node env k s).retry_count = s.retry_count ∧
    50 ≤ r.summary.length ∧
    r.findings ≠ [] ∧
    (∀ f ∈ r.findings, 0 ≤ f.confidence ∧ f.confidence ≤ 1) ∧
    (∀ f ∈ r.findings, ∀ c ∈ f.citations, ∀ y, c.year = some y →
      1900 ≤ y ∧ y ≤ env.ctx.currentYear + 1) ∧
    (∀ c ∈ r.sources, ∀ y, c.year = some y →
      1900 ≤ y ∧ y ≤ env.ctx.currentYear + 1) ∧
    (∀ fs m, j = Json.jobj fs → dictGet fs "metadata" = some (Json.jobj m) →
      r.metadata.query_time_seconds = env.elapsed k ∧
      r.metadata.retry_count = (s.retry_count : Int) ∧
      r.metadata.parse_success = true) := by
  have hnode : validate_node env k s =
      { s with validated_output := some r, error := "" } := by
    rw [validate_node_wellFormed env k s j hraw, hok]
  have hok' := hok
  unfold injectAndValidate at hok'
  obtain ⟨j', hj', hrs⟩ := bindOk hok'
  obtain ⟨hlen, hne, hfind, hsrc, hmdlink⟩ := rsFromJson_ok hrs
  refine ⟨hnode, by rw [hnode], hlen, hne, ?_, ?_, ?_, ?_⟩
  · intro f hf
    obtain ⟨jf, hjf⟩ := hfind f hf
    exact (findingFromJson_ok hjf).1
  · intro f hf c hc y hy
    obtain ⟨jf, hjf⟩ := hfind f hf
    exact (findingFromJson_ok hjf).2 c hc y hy
  · intro c hc y hy
    obtain ⟨jc, hjc⟩ := hsrc c hc
    exact citationFromJson_year hjc y hy
  · intro fs m hjeq hmd
    subst hjeq
    rw [injectMetadata_obj hmd] at hj'
    injection hj' with hj'
    subst hj'
    have hqm := hmdlink _ _ rfl (dictGet_dictSet_self fs "metadata" _)
    obtain ⟨hq, hr, hp⟩ := qmFromJson_fields hqm
    obtain ⟨hg1, hg2, hg3⟩ := dictGet_injected m (env.elapsed k) (s.retry_count : Int)
    exact ⟨hq _ hg1, hr _ hg2 (Int.natCast_nonneg _), hp _ hg3⟩

theorem C8_witness :
    validate_node env8 0 st8 =
      { st8 with validated_output := some expectedSummary, error := "" } ∧
    (validate_node env8 0 st8).retry_count = st8.retry_count ∧
    50 ≤ expectedSummary.summary.length ∧
    expectedSummary.findings ≠ [] ∧
    (expectedSummary.metadata.query_time_seconds = 0 ∧
      expectedSummary.metadata.retry_count = 0 ∧
      expectedSummary.metadata.parse_success = true) := by
  have h := C8_inject_then_validate env8 0 st8 validDoc expectedSummary rfl (by decide)
  have hmd := h.2.2.2.2.2.2.2 validDocFields validDocMeta rfl rfl
  exact ⟨h.1, h.2.1, h.2.2.1, h.2.2.2.1, hmd.1, hmd.2.1, hmd.2.2⟩

/-- C9: when every provider fails the aggregator returns the empty list,
filter and synthesize take their empty-input short-circuits
(`filtered_results = []`, `sources_used = 0`, empty synthesis text with the
run-level error `"No search results available"`), and `validated_output`
stays null — but the final result never materializes: the first
`validate_node` overwrites the error with `"Empty synthesis"` (never the
claimed `"no search results"` text) without incrementing `retry_count`, and
the graph never reaches `END` (LangGraph raises `GraphRecursionError`).
This evaluates the code at the failing input of the reported bug. -/
theorem C9_all_providers_fail :
    run_all_searches none none none = [] ∧
    aggregateOf envAllFail = [] ∧
    (machineAfter envAllFail "q" 2).st.filtered_results = [] ∧
    (machineAfter envAllFail "q" 2).st.sources_used = 0 ∧
    (machineAfter envAllFail "q" 3).st.synthesis_raw = RawText.empty ∧
    (machineAfter envAllFail "q" 3).st.error = "No search results available" ∧
    (∀ n, (machineAfter envAllFail "q" n).st.validated_output = none) ∧
    (machineAfter envAllFail "q" 4).st.error = "Empty synthesis" ∧
    (machineAfter envAllFail "q" 4).st.error ≠ "no search results" ∧
    (∀ n, (machineAfter envAllFail "q" n).phase ≠ Phase.done) := by
  refine ⟨rfl, rfl, rfl, rfl, rfl, rfl,
    fun n => (empty_synthesis_loop envAllFail "q" (fun _ => rfl) n).2.1,
    rfl, by decide,
    fun n => (empty_synthesis_loop envAllFail "q" (fun _ => rfl) n).1⟩

theorem C9_witness :
    (machineAfter envAllFail "q" 30).st.validated_output = none ∧
    (machineAfter envAllFail "q" 30).phase ≠ Phase.done :=
  ⟨C9_all_providers_fail.2.2.2.2.2.2.1 30,
   C9_all_providers_fail.2.2.2.2.2.2.2.2.2 30⟩

/-- C10: a successful DuckDuckGo call never returns an empty list — when
the underlying search yields no hits (a falsy generator or zero yielded
dicts) it returns exactly the placeholder result with title
`"DuckDuckGo Search"`, empty url, snippet `"No results found for {query}"`
and source `"duckduckgo"` — so an aggregate containing a successful
DuckDuckGo outcome is never empty. -/
theorem C10_ddg_placeholder :
    (∀ query gen, search_duckduckgo query gen ≠ []) ∧
    (∀ query, search_duckduckgo query none = [ddgPlaceholder query]) ∧
    (∀ query, search_duckduckgo query (some []) = [ddgPlaceholder query]) ∧
    (∀ query gen wiki arx,
      run_all_searches (some (search_duckduckgo query gen)) wiki arx ≠ []) := by
  have h1 : ∀ query gen, search_duckduckgo query gen ≠ [] := by
    intro query gen hc
    simp only [search_duckduckgo] at hc
    split at hc
    · cases hc
    · rename_i h
      exact h (by rw [hc]; rfl)
  refine ⟨h1, fun query => rfl, fun query => rfl, ?_⟩
  intro query gen wiki arx
  rcases hdd : search_duckduckgo query gen with _ | ⟨x, xs⟩
  · exact absurd hdd (h1 query gen)
  · intro hc
    simp [run_all_searches] at hc

theorem C10_witness :
    search_duckduckgo "q" none = [ddgPlaceholder "q"] ∧
    search_duckduckgo "q" none ≠ [] ∧
    run_all_searches (some (search_duckduckgo "q" none)) none none ≠ [] :=
  ⟨C10_ddg_placeholder.2.1 "q", C10_ddg_placeholder.1 "q" none,
   C10_ddg_placeholder.2.2.2 "q" none none none⟩

end ResearchAssistant
